import Mathlib

/-!
Verification of the worker-pool core of `s5cmd` (`worker.go`).

The Go file implements a fixed-size pool of workers draining a shared queue
of jobs.  Each job forms a success/failure continuation chain; a worker
executes the chain node by node, retrying rate-limited failures with
exponential backoff, and advances to the continuation selected by the node's
final outcome.  The embedding below translates `runWorker`, `singleRun`,
`Run`, `RunCmd` and `NewWorkerPool` into pure Lean functions.  External
collaborators that are not part of `worker.go` (the job actions, the error
classifier, the AWS resource constructors, the cancelable scanner) are
modelled abstractly, as documented on each definition.
-/

namespace S5cmd

/-- Modelled from the spec: an execution error as seen by the worker loop.
`IsRatelimitError` and `CleanupError` live outside `worker.go`; the spec only
requires a boolean rate-limit classification and a displayable message, so an
error is modelled as that pair. -/
structure Err where
  isRateLimit : Bool
  msg : String
deriving DecidableEq, Repr

/-- Modelled from the spec: the external error classifier
(`isRateLimited(error) → boolean`). -/
def IsRatelimitError (e : Err) : Bool := e.isRateLimit

/-- Modelled from the spec: the external error cleaner
(`cleanupError(error) → displayable text`). -/
def CleanupError (e : Err) : String := e.msg

/-- A job: a display label, an action (modelled from the spec as an opaque
run-once capability; the `Nat` argument is the attempt index for the current
node so that an external action may answer differently on different
attempts — a constant function models a deterministic action), and the
optional success / failure continuations (`successCommand`, `failCommand`
pointer fields of the Go `Job`). -/
inductive Job where
  | mk (label : String) (action : Nat → Option Err)
      (successCommand : Option Job) (failCommand : Option Job)

def Job.label : Job → String
  | .mk l _ _ _ => l

def Job.action : Job → Nat → Option Err
  | .mk _ a _ _ => a

def Job.successCommand : Job → Option Job
  | .mk _ _ sc _ => sc

def Job.failCommand : Job → Option Job
  | .mk _ _ _ fc => fc

/-- `WorkerPoolParams` of worker.go (Go `int` fields modelled as `Int`). -/
structure WorkerPoolParams where
  NumWorkers : Int
  ChunkSizeBytes : Int
  Retries : Int
deriving DecidableEq, Repr

/-- `bkf.InitialInterval = time.Second` (worker.go line 84); one time unit. -/
def initialInterval : Nat := 1

/-- `bkf.MaxInterval = time.Minute` (worker.go line 85), in the same unit. -/
def maxInterval : Nat := 60

/-- Modelled from the spec: advancing the backoff interval after
`NextBackOff` hands out the current one.  The backoff object is library code
not present under `src/`; the spec fixes initial interval one time unit,
multiplier 2 (worker.go line 86), capped at the configured maximum. -/
def nextInterval (cur : Nat) : Nat := min (cur * 2) maxInterval

/-- Log lines emitted by the worker loop: the retry notice (line 104), the
`-ERR` line (line 114) and the `+OK` line (line 118). -/
inductive LogEvent where
  | retryNotice (label : String) (sleepTime : Nat)
  | errLine (label : String) (msg : String)
  | okLine (label : String)
deriving DecidableEq, Repr

/-- Final outcome of one chain node: which continuation the code takes. -/
inductive Outcome where
  | success
  | failure
deriving DecidableEq, Repr

/-- Worker-visible state threaded through the loop of `runWorker`:
`tries` (line 97/102/121), the current backoff interval `cur` (the mutable
`bkf`), the `run` flag (line 89/110/125); `sleeps` counts backoff selects so
that cancellation can be given as an oracle `Nat → Bool` indexed by them;
`attempts` counts invocations of `job.Run` (observational instrumentation);
`retryCount` / `failCount` are the `STATS_RETRYOP` / `STATS_FAIL` counters;
`log` the emitted log lines in order. -/
structure WState where
  tries : Nat
  cur : Nat
  sleeps : Nat
  attempts : Nat
  retryCount : Nat
  failCount : Nat
  run : Bool
  log : List LogEvent
deriving DecidableEq, Repr

/-- Lines 121-122 of worker.go: `tries = 0; bkf.Reset()` after a chain node
resolves, before the next node begins. -/
def resetState (s : WState) : WState :=
  { s with tries := 0, cur := initialInterval }

/-- One chain node of the inner loop of `runWorker` (worker.go lines 98-120),
run to resolution: execute `job.Run` (one attempt), and on a rate-limited
error within budget sleep and re-execute; the `cancel` oracle says whether
`p.ctx.Done()` wins the select against `time.After` at the given sleep index.
Returns which continuation the code will take next, together with the state
after the terminal log/counter updates (lines 114-119). -/
def runNode (p : WorkerPoolParams) (cancel : Nat → Bool) (j : Job)
    (s : WState) : Outcome × WState :=
  let s0 := { s with attempts := s.attempts + 1 }
  match j.action s.tries with
  | some e =>
    if hr : IsRatelimitError e = true ∧ 0 < p.Retries ∧ (s.tries : Int) < p.Retries then
      let sleepTime := s0.cur
      let s1 := { s0 with
        tries := s0.tries + 1,
        cur := nextInterval s0.cur,
        sleeps := s0.sleeps + 1,
        log := s0.log ++ [LogEvent.retryNotice j.label sleepTime] }
      if cancel s0.sleeps then
        (Outcome.failure, { s1 with
          run := false,
          failCount := s1.failCount + 1,
          log := s1.log ++ [LogEvent.errLine j.label (CleanupError e)] })
      else
        runNode p cancel j { s1 with retryCount := s1.retryCount + 1 }
    else
      (Outcome.failure, { s0 with
        failCount := s0.failCount + 1,
        log := s0.log ++ [LogEvent.errLine j.label (CleanupError e)] })
  | none =>
    (Outcome.success, { s0 with log := s0.log ++ [LogEvent.okLine j.label] })
termination_by (p.Retries - s.tries).toNat
decreasing_by
  simp_wf
  omega

/-- The inner `for job != nil` loop of `runWorker` (lines 98-123): resolve
the current node, reset `tries` and the backoff (lines 121-122), and move to
the continuation selected by the outcome (line 116 / 119). -/
def runChain (p : WorkerPoolParams) (cancel : Nat → Bool) :
    Option Job → WState → WState
  | none, s => s
  | some (Job.mk l a sc fc), s =>
    match runNode p cancel (Job.mk l a sc fc) s with
    | (Outcome.success, s') => runChain p cancel sc (resetState s')
    | (Outcome.failure, s') => runChain p cancel fc (resetState s')

/-- The states at which each chain node of `runChain` begins executing
(same recursion, recording the state handed to every node). -/
def entryStates (p : WorkerPoolParams) (cancel : Nat → Bool) :
    Option Job → WState → List WState
  | none, _ => []
  | some (Job.mk l a sc fc), s =>
    s :: (match runNode p cancel (Job.mk l a sc fc) s with
      | (Outcome.success, s') => entryStates p cancel sc (resetState s')
      | (Outcome.failure, s') => entryStates p cancel fc (resetState s'))

/-- The outer loop of `runWorker` (lines 90-128) on the sequence of jobs this
worker receives from `jobQueue` before the channel closes: while `run` holds
it receives the next job, declares a fresh `tries := 0` (line 97) and runs
its chain; when `run` is false the loop exits and no further job is
dequeued. -/
def workerLoop (p : WorkerPoolParams) (cancel : Nat → Bool) :
    List Job → WState → WState
  | [], s => s
  | j :: rest, s =>
    if s.run then
      workerLoop p cancel rest (runChain p cancel (some j) { s with tries := 0 })
    else s

/-- One result of `CancelableScanner.ReadOne` in the feed loop of `Run`
(worker.go lines 176-191), modelled from the spec's line-source contract:
a line (together with the oracle for the select inside the subsequent
`singleRun`: `ctxWins = true` means `p.ctx.Done()` wins the race against the
queue send at line 141-145), the `context.Canceled` sentinel, the `io.EOF`
sentinel, or another read error. -/
inductive ReadResult where
  | line (s : String) (ctxWins : Bool)
  | canceledR
  | eofR
  | otherErr (msg : String)

/-- Observable events of the feeder (`singleRun`, `Run`, `RunCmd`):
a job handed into `jobQueue`, the parse-failure log/`STATS_FAIL` increment
(lines 136-137), the read-error log (line 186), `close(p.jobQueue)`
(lines 152, 180, 198) and `p.wg.Wait()` (lines 153, 195). -/
inductive FeedEvent where
  | submitJob (label : String)
  | parseFailLog (line : String)
  | readErrLog (msg : String)
  | closeQueue
  | waitWorkers
deriving DecidableEq, Repr

/-- `singleRun` of worker.go (lines 133-148), with the external `ParseJob`
passed in as a function and the select at lines 141-145 decided by the
`ctxWins` oracle.  Returns the Go boolean result together with the events
emitted and the number of `STATS_FAIL` increments. -/
def singleRun (parse : String → Except String Job) (ctxWins : Bool)
    (ln : String) : Bool × List FeedEvent × Nat :=
  match parse ln with
  | .error _ => (true, [FeedEvent.parseFailLog ln], 1)
  | .ok j =>
    if ctxWins then (false, [], 0)
    else (true, [FeedEvent.submitJob j.label], 0)

/-- The `for run` read loop of `Run` (worker.go lines 174-192) over the list
of results the scanner will produce, carrying the `closed` flag (line 170).
Returns `none` when the input list is exhausted without the loop having
ended (the next `ReadOne` would block), otherwise the `closed` flag and the
events emitted up to loop exit. -/
def feedLoop (parse : String → Except String Job) :
    List ReadResult → Bool → List FeedEvent → Option (Bool × List FeedEvent)
  | [], _, _ => none
  | r :: rest, closed, acc =>
    match r with
    | ReadResult.canceledR => some (closed, acc)
    | ReadResult.eofR => some (true, acc ++ [FeedEvent.closeQueue])
    | ReadResult.otherErr m => some (closed, acc ++ [FeedEvent.readErrLog m])
    | ReadResult.line str ctxWins =>
      match singleRun parse ctxWins str with
      | (true, evs, _) => feedLoop parse rest closed (acc ++ evs)
      | (false, evs, _) => some (closed, acc ++ evs)

/-- `Run` of worker.go (lines 156-200): drive the read loop, then
`p.wg.Wait()` (line 195) and, if the queue was not closed by the EOF path,
`close(p.jobQueue)` (lines 197-199).  `none` when the read loop would block
forever on its source. -/
def Run (parse : String → Except String Job) (input : List ReadResult) :
    Option (List FeedEvent) :=
  match feedLoop parse input false [] with
  | none => none
  | some (closed, evs) =>
    some (evs ++ [FeedEvent.waitWorkers]
      ++ if closed then [] else [FeedEvent.closeQueue])

/-- `RunCmd` of worker.go (lines 150-154): one `singleRun`, then
`close(p.jobQueue)` and `p.wg.Wait()`. -/
def RunCmd (parse : String → Except String Job) (ctxWins : Bool)
    (commandLine : String) : List FeedEvent :=
  (singleRun parse ctxWins commandLine).2.1
    ++ [FeedEvent.closeQueue, FeedEvent.waitWorkers]

/-- A dynamically-typed value stored in a `context.Context` value map:
either a `context.CancelFunc` (the type the assertion at worker.go line 48
expects) or a value of any other dynamic type. -/
inductive CtxVal where
  | cancelFunc
  | otherVal
deriving DecidableEq, Repr

/-- The value map of the `context.Context` handed to `NewWorkerPool`. -/
structure Ctx where
  values : String → Option CtxVal

/-- Heap-allocation state: each call to an AWS resource constructor
(`s3.New`, `s3manager.NewDownloader`, `s3manager.NewUploader`) returns a
fresh handle; distinct handles model distinct, unshared objects. -/
structure Alloc where
  next : Nat
deriving DecidableEq, Repr

def freshHandle (a : Alloc) : Nat × Alloc := (a.next, { next := a.next + 1 })

/-- `WorkerParams` of worker.go restricted to the per-worker AWS resources
built at lines 71-77 (`s3.New`, `s3manager.NewDownloader`,
`s3manager.NewUploader`), each a handle from the allocator. -/
structure WorkerParams where
  s3svc : Nat
  s3dl : Nat
  s3ul : Nat
deriving DecidableEq, Repr

/-- Resource construction at the top of `runWorker` (worker.go lines 71-77):
each worker builds its own service client, downloader and uploader. -/
def mkWorkerParams (a : Alloc) : WorkerParams × Alloc :=
  let (svc, a1) := freshHandle a
  let (dl, a2) := freshHandle a1
  let (ul, a3) := freshHandle a2
  ({ s3svc := svc, s3dl := dl, s3ul := ul }, a3)

/-- The spawn loop of `NewWorkerPool` (worker.go lines 60-63) together with
the per-worker resource construction each spawned `runWorker` performs.
The allocator is threaded in worker order; any interleaving of the actual
goroutines yields the same freshness facts. -/
def spawnWorkers : Nat → Alloc → List WorkerParams × Alloc
  | 0, a => ([], a)
  | n + 1, a =>
    let (w, a1) := mkWorkerParams a
    let (ws, a2) := spawnWorkers n a1
    (w :: ws, a2)

/-- All AWS resource handles owned by one worker. -/
def handles (w : WorkerParams) : List Nat := [w.s3svc, w.s3dl, w.s3ul]

/-- The pool handle returned by `NewWorkerPool`. -/
structure WorkerPool where
  numWorkers : Int
  workers : List WorkerParams
deriving DecidableEq, Repr

/-- `NewWorkerPool` of worker.go (lines 42-66): after the session is built,
line 48 type-asserts `ctx.Value("cancelFunc").(context.CancelFunc)`; a
missing key or a value of another dynamic type panics there (`none`), before
the pool struct is created or any worker goroutine is spawned (allocator
returned untouched).  Otherwise the pool is created and the `for i := 0;
i < params.NumWorkers; i++` loop spawns the workers (`Int.toNat` is exactly
the iteration count of that loop, 0 for non-positive `NumWorkers`). -/
def NewWorkerPool (ctx : Ctx) (params : WorkerPoolParams) (a : Alloc) :
    Option WorkerPool × Alloc :=
  match ctx.values "cancelFunc" with
  | some CtxVal.cancelFunc =>
    let (ws, a1) := spawnWorkers params.NumWorkers.toNat a
    (some { numWorkers := params.NumWorkers, workers := ws }, a1)
  | _ => (none, a)

/-! ### Step lemmas for `runNode` and `runChain` -/

/-- The state after one completed backoff sleep of a rate-limited node
(worker.go lines 102-108): `tries++`, the interval advanced by
`NextBackOff`, the retry notice logged, the sleep performed and
`STATS_RETRYOP` incremented. -/
def retryStep (j : Job) (s : WState) : WState :=
  { s with tries := s.tries + 1,
           cur := nextInterval s.cur,
           sleeps := s.sleeps + 1,
           attempts := s.attempts + 1,
           retryCount := s.retryCount + 1,
           log := s.log ++ [LogEvent.retryNotice j.label s.cur] }

theorem runNode_success (p : WorkerPoolParams) (cancel : Nat → Bool) (j : Job)
    (s : WState) (hact : j.action s.tries = none) :
    runNode p cancel j s =
      (Outcome.success,
        { s with attempts := s.attempts + 1,
                 log := s.log ++ [LogEvent.okLine j.label] }) := by
  conv_lhs => unfold runNode
  simp only [hact]

theorem runNode_terminal (p : WorkerPoolParams) (cancel : Nat → Bool) (j : Job)
    (s : WState) (e : Err) (hact : j.action s.tries = some e)
    (hne : ¬(IsRatelimitError e = true ∧ 0 < p.Retries ∧ (s.tries : Int) < p.Retries)) :
    runNode p cancel j s =
      (Outcome.failure,
        { s with attempts := s.attempts + 1,
                 failCount := s.failCount + 1,
                 log := s.log ++ [LogEvent.errLine j.label (CleanupError e)] }) := by
  conv_lhs => unfold runNode
  simp only [hact]
  rw [dif_neg hne]

theorem runNode_cancelSleep (p : WorkerPoolParams) (cancel : Nat → Bool)
    (j : Job) (s : WState) (e : Err) (hact : j.action s.tries = some e)
    (hr : IsRatelimitError e = true ∧ 0 < p.Retries ∧ (s.tries : Int) < p.Retries)
    (hc : cancel s.sleeps = true) :
    runNode p cancel j s =
      (Outcome.failure,
        { s with tries := s.tries + 1,
                 cur := nextInterval s.cur,
                 sleeps := s.sleeps + 1,
                 attempts := s.attempts + 1,
                 failCount := s.failCount + 1,
                 run := false,
                 log := s.log ++ [LogEvent.retryNotice j.label s.cur,
                                  LogEvent.errLine j.label (CleanupError e)] }) := by
  conv_lhs => unfold runNode
  simp only [hact]
  rw [dif_pos hr]
  simp only [hc, if_true]
  simp [List.append_assoc]

theorem runNode_retry (p : WorkerPoolParams) (cancel : Nat → Bool)
    (j : Job) (s : WState) (e : Err) (hact : j.action s.tries = some e)
    (hr : IsRatelimitError e = true ∧ 0 < p.Retries ∧ (s.tries : Int) < p.Retries)
    (hc : cancel s.sleeps = false) :
    runNode p cancel j s = runNode p cancel j (retryStep j s) := by
  conv_lhs => unfold runNode
  simp only [hact]
  rw [dif_pos hr]
  simp only [hc, Bool.false_eq_true, if_false]
  rfl

theorem runChain_none (p : WorkerPoolParams) (cancel : Nat → Bool)
    (s : WState) : runChain p cancel none s = s := by
  unfold runChain
  rfl

theorem runChain_some (p : WorkerPoolParams) (cancel : Nat → Bool)
    (l : String) (a : Nat → Option Err) (sc fc : Option Job) (s : WState) :
    runChain p cancel (some (Job.mk l a sc fc)) s =
      (match runNode p cancel (Job.mk l a sc fc) s with
        | (Outcome.success, s') => runChain p cancel sc (resetState s')
        | (Outcome.failure, s') => runChain p cancel fc (resetState s')) := by
  conv_lhs => unfold runChain

/-! ### Invariants of the worker loop -/

/-- The `run` flag is never set back to `true` by a chain node
(worker.go only assigns `run = false` inside the loop, line 110). -/
theorem runNode_run_false (p : WorkerPoolParams) (cancel : Nat → Bool) (j : Job) :
    ∀ s : WState, s.run = false → ((runNode p cancel j s).2).run = false := by
  intro s
  induction s using runNode.induct p cancel j with
  | case1 x s0 e hact hr hc =>
    intro hrun
    rw [runNode_cancelSleep p cancel j x e hact hr (by simpa using hc)]
  | case2 x s0 e hact hr st s1 hc ih =>
    intro hrun
    rw [runNode_retry p cancel j x e hact hr (by simpa using hc)]
    exact ih (by simpa [retryStep] using hrun)
  | case3 x e hact hne =>
    intro hrun
    rw [runNode_terminal p cancel j x e hact hne]
    simpa using hrun
  | case4 x hact =>
    intro hrun
    rw [runNode_success p cancel j x hact]
    simpa using hrun

/-- The count of backoff sleeps never decreases across a node. -/
theorem runNode_sleeps_le (p : WorkerPoolParams) (cancel : Nat → Bool) (j : Job) :
    ∀ s : WState, s.sleeps ≤ ((runNode p cancel j s).2).sleeps := by
  intro s
  induction s using runNode.induct p cancel j with
  | case1 x s0 e hact hr hc =>
    rw [runNode_cancelSleep p cancel j x e hact hr (by simpa using hc)]
    simp
  | case2 x s0 e hact hr st s1 hc ih =>
    rw [runNode_retry p cancel j x e hact hr (by simpa using hc)]
    exact le_trans (by simp [retryStep]) ih
  | case3 x e hact hne =>
    rw [runNode_terminal p cancel j x e hact hne]
  | case4 x hact =>
    rw [runNode_success p cancel j x hact]

/-- The failure counter increases by one exactly on a terminal failure
(worker.go line 115) and not on success. -/
theorem runNode_failCount (p : WorkerPoolParams) (cancel : Nat → Bool) (j : Job) :
    ∀ s : WState,
      ((runNode p cancel j s).2).failCount =
        s.failCount +
          (if (runNode p cancel j s).1 = Outcome.success then 0 else 1) := by
  intro s
  induction s using runNode.induct p cancel j with
  | case1 x s0 e hact hr hc =>
    rw [runNode_cancelSleep p cancel j x e hact hr (by simpa using hc)]
    simp
  | case2 x s0 e hact hr st s1 hc ih =>
    rw [runNode_retry p cancel j x e hact hr (by simpa using hc)]
    simpa [retryStep] using ih
  | case3 x e hact hne =>
    rw [runNode_terminal p cancel j x e hact hne]
    simp
  | case4 x hact =>
    rw [runNode_success p cancel j x hact]
    simp

/-- A resolved node leaves the matching log line: `+OK` on success
(line 118), `-ERR` on terminal failure (line 114). -/
theorem runNode_logged (p : WorkerPoolParams) (cancel : Nat → Bool) (j : Job) :
    ∀ s : WState,
      if (runNode p cancel j s).1 = Outcome.success then
        LogEvent.okLine j.label ∈ ((runNode p cancel j s).2).log
      else
        ∃ m, LogEvent.errLine j.label m ∈ ((runNode p cancel j s).2).log := by
  intro s
  induction s using runNode.induct p cancel j with
  | case1 x s0 e hact hr hc =>
    rw [runNode_cancelSleep p cancel j x e hact hr (by simpa using hc)]
    exact ⟨CleanupError e, by simp⟩
  | case2 x s0 e hact hr st s1 hc ih =>
    rw [runNode_retry p cancel j x e hact hr (by simpa using hc)]
    simpa [retryStep] using ih
  | case3 x e hact hne =>
    rw [runNode_terminal p cancel j x e hact hne]
    exact ⟨CleanupError e, by simp⟩
  | case4 x hact =>
    rw [runNode_success p cancel j x hact]
    simp

/-- The chain step taken on a failed node: worker.go line 116. -/
theorem runChain_failure_step (p : WorkerPoolParams) (cancel : Nat → Bool)
    (l : String) (a : Nat → Option Err) (sc fc : Option Job) (s : WState)
    (hfail : (runNode p cancel (Job.mk l a sc fc) s).1 = Outcome.failure) :
    runChain p cancel (some (Job.mk l a sc fc)) s =
      runChain p cancel fc
        (resetState (runNode p cancel (Job.mk l a sc fc) s).2) := by
  rw [runChain_some]
  rcases hE : runNode p cancel (Job.mk l a sc fc) s with ⟨o, s'⟩
  rw [hE] at hfail
  cases o with
  | success => cases hfail
  | failure => simp [hE]

/-- The chain step taken on a succeeded node: worker.go line 119. -/
theorem runChain_success_step (p : WorkerPoolParams) (cancel : Nat → Bool)
    (l : String) (a : Nat → Option Err) (sc fc : Option Job) (s : WState)
    (hsucc : (runNode p cancel (Job.mk l a sc fc) s).1 = Outcome.success) :
    runChain p cancel (some (Job.mk l a sc fc)) s =
      runChain p cancel sc
        (resetState (runNode p cancel (Job.mk l a sc fc) s).2) := by
  rw [runChain_some]
  rcases hE : runNode p cancel (Job.mk l a sc fc) s with ⟨o, s'⟩
  rw [hE] at hsucc
  cases o with
  | success => simp [hE]
  | failure => cases hsucc

/-- Once the `run` flag is false it stays false through the rest of the
chain. -/
theorem runChain_run_false (p : WorkerPoolParams) (cancel : Nat → Bool) :
    ∀ (oj : Option Job) (s : WState), s.run = false →
      (runChain p cancel oj s).run = false := by
  intro oj s
  induction oj, s using runChain.induct p cancel with
  | case1 s => intro hrun; simpa [runChain_none] using hrun
  | case2 l a sc fc s s' hE ih =>
    intro hrun
    rw [runChain_success_step p cancel l a sc fc s (by rw [hE]), hE]
    apply ih
    have hs' := runNode_run_false p cancel (Job.mk l a sc fc) s hrun
    rw [hE] at hs'
    simpa [resetState] using hs'
  | case3 l a sc fc s s' hE ih =>
    intro hrun
    rw [runChain_failure_step p cancel l a sc fc s (by rw [hE]), hE]
    apply ih
    have hs' := runNode_run_false p cancel (Job.mk l a sc fc) s hrun
    rw [hE] at hs'
    simpa [resetState] using hs'

theorem entryStates_none (p : WorkerPoolParams) (cancel : Nat → Bool)
    (s : WState) : entryStates p cancel none s = [] := by
  unfold entryStates
  rfl

theorem entryStates_some (p : WorkerPoolParams) (cancel : Nat → Bool)
    (l : String) (a : Nat → Option Err) (sc fc : Option Job) (s : WState) :
    entryStates p cancel (some (Job.mk l a sc fc)) s =
      s :: (match runNode p cancel (Job.mk l a sc fc) s with
        | (Outcome.success, s') => entryStates p cancel sc (resetState s')
        | (Outcome.failure, s') => entryStates p cancel fc (resetState s')) := by
  conv_lhs => unfold entryStates

/-- Every chain node after the first starts from the reset of lines
121-122; if the first node also starts reset, every node entry state has a
zero attempt count and the initial backoff interval. -/
theorem entryStates_reset (p : WorkerPoolParams) (cancel : Nat → Bool) :
    ∀ (oj : Option Job) (s : WState), s.tries = 0 → s.cur = initialInterval →
      ∀ t ∈ entryStates p cancel oj s,
        t.tries = 0 ∧ t.cur = initialInterval := by
  intro oj s
  induction oj, s using entryStates.induct p cancel with
  | case1 s => simp [entryStates_none]
  | case2 l a sc fc s ihsc ihfc =>
    intro h0 hcur t ht
    rcases hE : runNode p cancel (Job.mk l a sc fc) s with ⟨o, s'⟩
    rw [entryStates_some, hE] at ht
    cases o with
    | success =>
      simp only [List.mem_cons] at ht
      rcases ht with rfl | ht
      · exact ⟨h0, hcur⟩
      · exact ihsc s' (by simp [resetState]) (by simp [resetState]) t ht
    | failure =>
      simp only [List.mem_cons] at ht
      rcases ht with rfl | ht
      · exact ⟨h0, hcur⟩
      · exact ihfc s' (by simp [resetState]) (by simp [resetState]) t ht

/-- The state a chain leaves behind (handed to the next dequeued job) has a
zero attempt count and the initial backoff interval, provided it started
that way (fresh workers do: `tries := 0` at line 97, `bkf.Reset()` at
line 87). -/
theorem runChain_final_reset (p : WorkerPoolParams) (cancel : Nat → Bool) :
    ∀ (oj : Option Job) (s : WState), s.tries = 0 → s.cur = initialInterval →
      (runChain p cancel oj s).tries = 0 ∧
        (runChain p cancel oj s).cur = initialInterval := by
  intro oj s
  induction oj, s using runChain.induct p cancel with
  | case1 s => intro h0 hcur; rw [runChain_none]; exact ⟨h0, hcur⟩
  | case2 l a sc fc s s' hE ih =>
    intro h0 hcur
    rw [runChain_success_step p cancel l a sc fc s (by rw [hE]), hE]
    exact ih (by simp [resetState]) (by simp [resetState])
  | case3 l a sc fc s s' hE ih =>
    intro h0 hcur
    rw [runChain_failure_step p cancel l a sc fc s (by rw [hE]), hE]
    exact ih (by simp [resetState]) (by simp [resetState])

/-! ### The backoff interval sequence -/

/-- The deterministic interval sequence of the modelled backoff policy:
`curAfter n` is the value of the mutable interval after `n` calls to
`NextBackOff` since the last `Reset`. -/
def curAfter : Nat → Nat
  | 0 => initialInterval
  | n + 1 => nextInterval (curAfter n)

/-- The sleep durations appearing in the retry-notice log lines, in order. -/
def noticeTimes (log : List LogEvent) : List Nat :=
  log.filterMap fun ev =>
    match ev with
    | LogEvent.retryNotice _ t => some t
    | _ => none

@[simp] theorem noticeTimes_nil : noticeTimes [] = [] := rfl

@[simp] theorem noticeTimes_append (a b : List LogEvent) :
    noticeTimes (a ++ b) = noticeTimes a ++ noticeTimes b :=
  List.filterMap_append a b _

@[simp] theorem noticeTimes_cons_retry (l : String) (t : Nat)
    (rest : List LogEvent) :
    noticeTimes (LogEvent.retryNotice l t :: rest) = t :: noticeTimes rest := rfl

@[simp] theorem noticeTimes_cons_err (l m : String) (rest : List LogEvent) :
    noticeTimes (LogEvent.errLine l m :: rest) = noticeTimes rest := rfl

@[simp] theorem noticeTimes_cons_ok (l : String) (rest : List LogEvent) :
    noticeTimes (LogEvent.okLine l :: rest) = noticeTimes rest := rfl

theorem curAfter_le_max : ∀ n, curAfter n ≤ maxInterval := by
  intro n
  induction n with
  | zero => decide
  | succ n _ => exact min_le_right _ _

theorem curAfter_mono (n : Nat) : curAfter n ≤ curAfter (n + 1) := by
  refine le_min (by omega) (curAfter_le_max n)

/-- The sleep durations a node's retries log are consecutive values of the
backoff sequence, starting where the mutable interval currently stands. -/
theorem runNode_notices (p : WorkerPoolParams) (cancel : Nat → Bool)
    (j : Job) :
    ∀ (s : WState) (k : Nat), s.cur = curAfter k →
      noticeTimes ((runNode p cancel j s).2).log =
        noticeTimes s.log ++
          (List.range' k (((runNode p cancel j s).2).sleeps - s.sleeps)).map
            curAfter := by
  intro s
  induction s using runNode.induct p cancel j with
  | case1 x s0 e hact hr hc =>
    intro k hk
    rw [runNode_cancelSleep p cancel j x e hact hr (by simpa using hc)]
    simp [hk, List.range'_succ]
  | case2 x s0 e hact hr st s1 hc ih =>
    intro k hk
    rw [runNode_retry p cancel j x e hact hr (by simpa using hc)]
    have hcur' : (retryStep j x).cur = curAfter (k + 1) := by
      simp [retryStep, curAfter, hk]
    have H : noticeTimes ((runNode p cancel j (retryStep j x)).2).log =
        noticeTimes (retryStep j x).log ++
          (List.range' (k + 1)
            (((runNode p cancel j (retryStep j x)).2).sleeps -
              (retryStep j x).sleeps)).map curAfter :=
      ih (k + 1) hcur'
    rw [H]
    have hle := runNode_sleeps_le p cancel j (retryStep j x)
    have hsl : (retryStep j x).sleeps = x.sleeps + 1 := by simp [retryStep]
    rw [hsl] at hle H ⊢
    have hdiff :
        ((runNode p cancel j (retryStep j x)).2).sleeps - x.sleeps =
          (((runNode p cancel j (retryStep j x)).2).sleeps - (x.sleeps + 1))
            + 1 := by
      omega
    rw [hdiff, List.range'_succ]
    simp [retryStep, hk]
  | case3 x e hact hne =>
    intro k hk
    rw [runNode_terminal p cancel j x e hact hne]
    simp
  | case4 x hact =>
    intro k hk
    rw [runNode_success p cancel j x hact]
    simp

/-- A node whose action is rate-limited on every attempt, with no
cancellation: runs `Retries - tries` further attempts plus the current one,
increments the retry counter once per completed sleep, and resolves as a
terminal failure with one failure increment. -/
theorem runNode_const_rl (p : WorkerPoolParams) (cancel : Nat → Bool)
    (hcan : ∀ n, cancel n = false) (l : String) (er : Err)
    (sc fc : Option Job) (he : IsRatelimitError er = true)
    (hp : 0 < p.Retries) :
    ∀ s : WState, (s.tries : Int) ≤ p.Retries →
      (runNode p cancel (Job.mk l (fun _ => some er) sc fc) s).1 =
          Outcome.failure
      ∧ ((runNode p cancel (Job.mk l (fun _ => some er) sc fc) s).2).attempts
          = s.attempts + (p.Retries - s.tries).toNat + 1
      ∧ ((runNode p cancel (Job.mk l (fun _ => some er) sc fc) s).2).retryCount
          = s.retryCount + (p.Retries - s.tries).toNat
      ∧ ((runNode p cancel (Job.mk l (fun _ => some er) sc fc) s).2).failCount
          = s.failCount + 1
      ∧ ((runNode p cancel (Job.mk l (fun _ => some er) sc fc) s).2).run
          = s.run := by
  intro s
  induction s using runNode.induct p cancel (Job.mk l (fun _ => some er) sc fc) with
  | case1 x s0 e' hact hr hc =>
    intro hle
    simp [hcan] at hc
  | case2 x s0 e' hact hr st s1 hc ih =>
    intro hle
    have hee : e' = er := by
      simpa [Job.action, eq_comm] using hact
    subst hee
    have htr : (x.tries : Int) < p.Retries := hr.2.2
    rw [runNode_retry p cancel (Job.mk l (fun _ => some e') sc fc) x e' hact hr
      (by simpa using hc)]
    have hihyp : ((retryStep (Job.mk l (fun _ => some e') sc fc) x).tries : Int)
        ≤ p.Retries := by
      simp only [retryStep]
      push_cast
      omega
    obtain ⟨h1, h2, h3, h4, h5⟩ := ih hihyp
    refine ⟨h1, ?_, ?_, ?_, ?_⟩
    · simp only [retryStep] at h2 ⊢
      rw [h2]
      omega
    · simp only [retryStep] at h3 ⊢
      rw [h3]
      omega
    · simpa [retryStep] using h4
    · simpa [retryStep] using h5
  | case3 x e' hact hne =>
    intro hle
    have hee : e' = er := by
      simpa [Job.action, eq_comm] using hact
    subst hee
    have hge : ¬((x.tries : Int) < p.Retries) := fun hlt => hne ⟨he, hp, hlt⟩
    have h0 : (p.Retries - x.tries).toNat = 0 := by omega
    rw [runNode_terminal p cancel (Job.mk l (fun _ => some e') sc fc) x e'
      hact hne]
    simp [h0]
  | case4 x hact =>
    intro hle
    simp [Job.action] at hact


/-! ### Feeder lemmas -/

/-- `singleRun` never closes the queue nor waits on the pool. -/
theorem singleRun_no_close (parse : String → Except String Job)
    (ctxWins : Bool) (ln : String) :
    FeedEvent.closeQueue ∉ (singleRun parse ctxWins ln).2.1 ∧
      FeedEvent.waitWorkers ∉ (singleRun parse ctxWins ln).2.1 := by
  unfold singleRun
  rcases parse ln with m | jb
  · simp
  · rcases ctxWins with _ | _ <;> simp

/-- Counting `close(p.jobQueue)` and `p.wg.Wait()` events over the read
loop: the loop closes the queue exactly when it exits through the
end-of-input path (`closed = true`), and never waits. -/
theorem feedLoop_counts (parse : String → Except String Job) :
    ∀ (input : List ReadResult) (closed : Bool) (acc : List FeedEvent),
      closed = false → ∀ (c' : Bool) (evs : List FeedEvent),
        feedLoop parse input closed acc = some (c', evs) →
          evs.count FeedEvent.closeQueue =
              acc.count FeedEvent.closeQueue + (if c' then 1 else 0)
          ∧ evs.count FeedEvent.waitWorkers =
              acc.count FeedEvent.waitWorkers := by
  intro input closed acc
  induction input, closed, acc using feedLoop.induct parse with
  | case1 closed acc =>
    intro _ c' evs h
    simp [feedLoop] at h
  | case2 rest closed acc =>
    intro hcl c' evs h
    simp only [feedLoop, Option.some.injEq, Prod.mk.injEq] at h
    obtain ⟨hc, he⟩ := h
    subst hc
    subst he
    subst hcl
    simp
  | case3 rest closed acc =>
    intro hcl c' evs h
    simp only [feedLoop, Option.some.injEq, Prod.mk.injEq] at h
    obtain ⟨hc, he⟩ := h
    subst hc
    subst he
    simp [List.count_append, List.count_singleton]
  | case4 rest closed acc m =>
    intro hcl c' evs h
    simp only [feedLoop, Option.some.injEq, Prod.mk.injEq] at h
    obtain ⟨hc, he⟩ := h
    subst hc
    subst he
    subst hcl
    simp [List.count_append, List.count_singleton]
  | case5 rest closed acc str ctxWins evs0 snd hsr ih =>
    intro hcl c' evs h
    have hstep : feedLoop parse (ReadResult.line str ctxWins :: rest) closed acc
        = feedLoop parse rest closed (acc ++ evs0) := by
      simp only [feedLoop, hsr]
    rw [hstep] at h
    obtain ⟨hclose, hwait⟩ := ih hcl c' evs h
    have hnc := singleRun_no_close parse ctxWins str
    rw [hsr] at hnc
    rw [hclose, hwait]
    rw [List.count_append, List.count_append,
      List.count_eq_zero.mpr hnc.1, List.count_eq_zero.mpr hnc.2]
    simp
  | case6 rest closed acc str ctxWins evs0 snd hsr =>
    intro hcl c' evs h
    have hstep : feedLoop parse (ReadResult.line str ctxWins :: rest) closed acc
        = some (closed, acc ++ evs0) := by
      simp only [feedLoop, hsr]
    rw [hstep] at h
    simp only [Option.some.injEq, Prod.mk.injEq] at h
    obtain ⟨hc, he⟩ := h
    subst hc
    subst he
    subst hcl
    have hnc := singleRun_no_close parse ctxWins str
    rw [hsr] at hnc
    simp [List.count_append, List.count_eq_zero.mpr hnc.1,
      List.count_eq_zero.mpr hnc.2]

/-! ### Pool construction lemmas -/

/-- All AWS resource handles of a list of workers, in worker order. -/
def allHandles : List WorkerParams → List Nat
  | [] => []
  | w :: ws => handles w ++ allHandles ws

theorem spawnWorkers_length : ∀ (n : Nat) (a : Alloc),
    ((spawnWorkers n a).1).length = n := by
  intro n
  induction n with
  | zero => intro a; rfl
  | succ n ih =>
    intro a
    simp [spawnWorkers, mkWorkerParams, freshHandle, ih]

theorem range'_three (a m : Nat) :
    List.range' a (m + 3) = a :: (a + 1) :: (a + 2) :: List.range' (a + 3) m := by
  rw [show m + 3 = (m + 2) + 1 from rfl, List.range'_succ]
  rw [show m + 2 = (m + 1) + 1 from rfl, List.range'_succ]
  rw [List.range'_succ]

theorem spawnWorkers_handles : ∀ (n : Nat) (a : Alloc),
    allHandles (spawnWorkers n a).1 = List.range' a.next (3 * n) := by
  intro n
  induction n with
  | zero => intro a; rfl
  | succ n ih =>
    intro a
    have h3 : 3 * (n + 1) = 3 * n + 3 := by ring
    rw [h3, range'_three]
    simp [spawnWorkers, mkWorkerParams, freshHandle, allHandles, handles, ih,
      Nat.add_assoc]

theorem spawnWorkers_nodup (n : Nat) (a : Alloc) :
    (allHandles (spawnWorkers n a).1).Nodup := by
  rw [spawnWorkers_handles]
  exact List.nodup_range' _ _


/-- Exiting the outer receive loop: once `run` is false the worker dequeues
no further job (worker.go line 90). -/
theorem workerLoop_stop (p : WorkerPoolParams) (cancel : Nat → Bool)
    (rest : List Job) (s : WState) (h : s.run = false) :
    workerLoop p cancel rest s = s := by
  cases rest with
  | nil => rfl
  | cons j r => simp [workerLoop, h]

/-! ### The claims -/

/-- Claim C1: for a job whose action returns a rate-limit error on every attempt,
executed with retry budget `R > 0` and no cancellation, the action runs
exactly `R + 1` times, the retry counter is incremented exactly `R` times,
the failure counter exactly once, and the worker advances to the job's
failure continuation. -/
theorem retryBudget_exhaustion_spec (p : WorkerPoolParams)
    (cancel : Nat → Bool) (l : String) (er : Err) (sc fc : Option Job)
    (s : WState) (hcan : ∀ n, cancel n = false)
    (he : IsRatelimitError er = true) (hp : 0 < p.Retries)
    (h0 : s.tries = 0) :
    (runNode p cancel (Job.mk l (fun _ => some er) sc fc) s).1 =
        Outcome.failure
    ∧ ((runNode p cancel (Job.mk l (fun _ => some er) sc fc) s).2).attempts
        = s.attempts + p.Retries.toNat + 1
    ∧ ((runNode p cancel (Job.mk l (fun _ => some er) sc fc) s).2).retryCount
        = s.retryCount + p.Retries.toNat
    ∧ ((runNode p cancel (Job.mk l (fun _ => some er) sc fc) s).2).failCount
        = s.failCount + 1
    ∧ runChain p cancel (some (Job.mk l (fun _ => some er) sc fc)) s
        = runChain p cancel fc
            (resetState
              (runNode p cancel (Job.mk l (fun _ => some er) sc fc) s).2) := by
  obtain ⟨h1, h2, h3, h4, h5⟩ :=
    runNode_const_rl p cancel hcan l er sc fc he hp s
      (by rw [h0]; push_cast; omega)
  refine ⟨h1, ?_, ?_, h4, runChain_failure_step p cancel l _ sc fc s h1⟩
  · rw [h2, h0]
    simp
  · rw [h3, h0]
    simp

theorem retryBudget_exhaustion_spec_witness :
    (runNode ⟨1, 1, 2⟩ (fun _ => false)
        (Job.mk "job" (fun _ => some ⟨true, "slow down"⟩) none none)
        ⟨0, 1, 0, 0, 0, 0, true, []⟩).1 = Outcome.failure
    ∧ ((runNode ⟨1, 1, 2⟩ (fun _ => false)
        (Job.mk "job" (fun _ => some ⟨true, "slow down"⟩) none none)
        ⟨0, 1, 0, 0, 0, 0, true, []⟩).2).attempts = 0 + (2 : Int).toNat + 1
    ∧ ((runNode ⟨1, 1, 2⟩ (fun _ => false)
        (Job.mk "job" (fun _ => some ⟨true, "slow down"⟩) none none)
        ⟨0, 1, 0, 0, 0, 0, true, []⟩).2).retryCount = 0 + (2 : Int).toNat
    ∧ ((runNode ⟨1, 1, 2⟩ (fun _ => false)
        (Job.mk "job" (fun _ => some ⟨true, "slow down"⟩) none none)
        ⟨0, 1, 0, 0, 0, 0, true, []⟩).2).failCount = 0 + 1
    ∧ runChain ⟨1, 1, 2⟩ (fun _ => false)
        (some (Job.mk "job" (fun _ => some ⟨true, "slow down"⟩) none none))
        ⟨0, 1, 0, 0, 0, 0, true, []⟩
      = runChain ⟨1, 1, 2⟩ (fun _ => false) none
          (resetState
            (runNode ⟨1, 1, 2⟩ (fun _ => false)
              (Job.mk "job" (fun _ => some ⟨true, "slow down"⟩) none none)
              ⟨0, 1, 0, 0, 0, 0, true, []⟩).2) :=
  retryBudget_exhaustion_spec ⟨1, 1, 2⟩ (fun _ => false) "job"
    ⟨true, "slow down"⟩ none none ⟨0, 1, 0, 0, 0, 0, true, []⟩
    (fun _ => rfl) rfl (by decide) rfl

/-- Claim C2: a node is retried only when its error is classified rate-limited,
the configured maximum retry count is positive and the attempts so far are
below it; any other error is terminal on first occurrence, and a retry
count of 0 disables retries for every error. -/
theorem retry_eligibility_spec (p : WorkerPoolParams) (cancel : Nat → Bool)
    (l : String) (a : Nat → Option Err) (sc fc : Option Job) (s : WState)
    (e : Err) (hact : a s.tries = some e) :
    (¬(IsRatelimitError e = true ∧ 0 < p.Retries ∧ (s.tries : Int) < p.Retries) →
      runNode p cancel (Job.mk l a sc fc) s =
        (Outcome.failure,
          { s with attempts := s.attempts + 1,
                   failCount := s.failCount + 1,
                   log := s.log ++ [LogEvent.errLine l (CleanupError e)] }))
    ∧ (IsRatelimitError e = true → 0 < p.Retries →
        (s.tries : Int) < p.Retries → cancel s.sleeps = false →
        runNode p cancel (Job.mk l a sc fc) s =
          runNode p cancel (Job.mk l a sc fc)
            (retryStep (Job.mk l a sc fc) s))
    ∧ (p.Retries = 0 →
        runNode p cancel (Job.mk l a sc fc) s =
          (Outcome.failure,
            { s with attempts := s.attempts + 1,
                     failCount := s.failCount + 1,
                     log := s.log ++ [LogEvent.errLine l (CleanupError e)] })) := by
  refine ⟨?_, ?_, ?_⟩
  · intro hne
    simpa [Job.label] using
      runNode_terminal p cancel (Job.mk l a sc fc) s e
        (by simpa [Job.action] using hact) hne
  · intro h1 h2 h3 h4
    exact runNode_retry p cancel (Job.mk l a sc fc) s e
      (by simpa [Job.action] using hact) ⟨h1, h2, h3⟩ h4
  · intro hz
    have hne :
        ¬(IsRatelimitError e = true ∧ 0 < p.Retries ∧
          (s.tries : Int) < p.Retries) := by
      rintro ⟨_, hpos, _⟩
      rw [hz] at hpos
      exact absurd hpos (by norm_num)
    simpa [Job.label] using
      runNode_terminal p cancel (Job.mk l a sc fc) s e
        (by simpa [Job.action] using hact) hne

theorem retry_eligibility_spec_witness :
    (¬(IsRatelimitError ⟨false, "denied"⟩ = true ∧ 0 < (3 : Int) ∧
        (((⟨0, 1, 0, 0, 0, 0, true, []⟩ : WState).tries : Int) < 3)) →
      runNode ⟨1, 1, 3⟩ (fun _ => false)
          (Job.mk "cp" (fun _ => some ⟨false, "denied"⟩) none none)
          ⟨0, 1, 0, 0, 0, 0, true, []⟩ =
        (Outcome.failure,
          { (⟨0, 1, 0, 0, 0, 0, true, []⟩ : WState) with
              attempts := 0 + 1,
              failCount := 0 + 1,
              log := [] ++ [LogEvent.errLine "cp" (CleanupError ⟨false, "denied"⟩)] }))
    ∧ (IsRatelimitError ⟨false, "denied"⟩ = true → 0 < (3 : Int) →
        (((⟨0, 1, 0, 0, 0, 0, true, []⟩ : WState).tries : Int) < 3) →
        (fun (_ : Nat) => false) ((⟨0, 1, 0, 0, 0, 0, true, []⟩ : WState).sleeps) = false →
        runNode ⟨1, 1, 3⟩ (fun _ => false)
            (Job.mk "cp" (fun _ => some ⟨false, "denied"⟩) none none)
            ⟨0, 1, 0, 0, 0, 0, true, []⟩ =
          runNode ⟨1, 1, 3⟩ (fun _ => false)
            (Job.mk "cp" (fun _ => some ⟨false, "denied"⟩) none none)
            (retryStep (Job.mk "cp" (fun _ => some ⟨false, "denied"⟩) none none)
              ⟨0, 1, 0, 0, 0, 0, true, []⟩))
    ∧ ((3 : Int) = 0 →
        runNode ⟨1, 1, 3⟩ (fun _ => false)
            (Job.mk "cp" (fun _ => some ⟨false, "denied"⟩) none none)
            ⟨0, 1, 0, 0, 0, 0, true, []⟩ =
          (Outcome.failure,
            { (⟨0, 1, 0, 0, 0, 0, true, []⟩ : WState) with
                attempts := 0 + 1,
                failCount := 0 + 1,
                log := [] ++ [LogEvent.errLine "cp" (CleanupError ⟨false, "denied"⟩)] })) :=
  retry_eligibility_spec ⟨1, 1, 3⟩ (fun _ => false) "cp"
    (fun _ => some ⟨false, "denied"⟩) none none ⟨0, 1, 0, 0, 0, 0, true, []⟩
    ⟨false, "denied"⟩ rfl


/-- Claim C3: if the context is canceled while the worker sleeps in backoff
for a rate-limited node — at any backoff sleep of that node, whatever the
number of retries already performed — the node is not retried again (no
retry increment, no further attempt), it is logged and counted as a
terminal failure, the worker advances to the node's failure continuation
(processing the rest of the chain, on which the `run` flag stays false),
and after the chain ends the worker dequeues no further jobs. -/
theorem cancel_during_backoff_spec (p : WorkerPoolParams)
    (cancel : Nat → Bool) (l : String) (a : Nat → Option Err)
    (sc fc : Option Job) (s : WState) (rest : List Job) (e : Err)
    (hact : a s.tries = some e)
    (he : IsRatelimitError e = true) (hp : 0 < p.Retries)
    (ht : (s.tries : Int) < p.Retries)
    (hc : cancel s.sleeps = true) :
    (runNode p cancel (Job.mk l a sc fc) s).1 = Outcome.failure
    ∧ ((runNode p cancel (Job.mk l a sc fc) s).2).run = false
    ∧ ((runNode p cancel (Job.mk l a sc fc) s).2).retryCount = s.retryCount
    ∧ ((runNode p cancel (Job.mk l a sc fc) s).2).failCount = s.failCount + 1
    ∧ ((runNode p cancel (Job.mk l a sc fc) s).2).attempts = s.attempts + 1
    ∧ LogEvent.errLine l (CleanupError e) ∈
        ((runNode p cancel (Job.mk l a sc fc) s).2).log
    ∧ runChain p cancel (some (Job.mk l a sc fc)) s
        = runChain p cancel fc
            (resetState (runNode p cancel (Job.mk l a sc fc) s).2)
    ∧ (runChain p cancel (some (Job.mk l a sc fc)) s).run = false
    ∧ workerLoop p cancel rest
        (runChain p cancel (some (Job.mk l a sc fc)) s)
        = runChain p cancel (some (Job.mk l a sc fc)) s := by
  have hact' : (Job.mk l a sc fc).action s.tries = some e := by
    simpa [Job.action] using hact
  have hr : IsRatelimitError e = true ∧ 0 < p.Retries ∧
      (s.tries : Int) < p.Retries := ⟨he, hp, ht⟩
  have hE := runNode_cancelSleep p cancel (Job.mk l a sc fc) s e hact' hr hc
  have h1 : (runNode p cancel (Job.mk l a sc fc) s).1 = Outcome.failure := by
    rw [hE]
  have hchain := runChain_failure_step p cancel l a sc fc s h1
  have hrf : (runChain p cancel (some (Job.mk l a sc fc)) s).run = false := by
    rw [hchain]
    refine runChain_run_false p cancel fc _ ?_
    rw [hE]
    simp [resetState]
  refine ⟨h1, by rw [hE], by rw [hE], by rw [hE], by rw [hE],
    by rw [hE]; simp [Job.label], hchain, hrf,
    workerLoop_stop p cancel rest _ hrf⟩

theorem cancel_during_backoff_spec_witness :
    (runNode ⟨1, 1, 2⟩ (fun n => decide (1 ≤ n))
        (Job.mk "up" (fun _ => some ⟨true, "throttled"⟩) none
          (some (Job.mk "cleanup" (fun _ => none) none none)))
        ⟨1, 2, 1, 1, 1, 0, true, [LogEvent.retryNotice "up" 1]⟩).1
      = Outcome.failure
    ∧ ((runNode ⟨1, 1, 2⟩ (fun n => decide (1 ≤ n))
        (Job.mk "up" (fun _ => some ⟨true, "throttled"⟩) none
          (some (Job.mk "cleanup" (fun _ => none) none none)))
        ⟨1, 2, 1, 1, 1, 0, true, [LogEvent.retryNotice "up" 1]⟩).2).run = false
    ∧ ((runNode ⟨1, 1, 2⟩ (fun n => decide (1 ≤ n))
        (Job.mk "up" (fun _ => some ⟨true, "throttled"⟩) none
          (some (Job.mk "cleanup" (fun _ => none) none none)))
        ⟨1, 2, 1, 1, 1, 0, true, [LogEvent.retryNotice "up" 1]⟩).2).retryCount
        = 1
    ∧ ((runNode ⟨1, 1, 2⟩ (fun n => decide (1 ≤ n))
        (Job.mk "up" (fun _ => some ⟨true, "throttled"⟩) none
          (some (Job.mk "cleanup" (fun _ => none) none none)))
        ⟨1, 2, 1, 1, 1, 0, true, [LogEvent.retryNotice "up" 1]⟩).2).failCount
        = 0 + 1
    ∧ ((runNode ⟨1, 1, 2⟩ (fun n => decide (1 ≤ n))
        (Job.mk "up" (fun _ => some ⟨true, "throttled"⟩) none
          (some (Job.mk "cleanup" (fun _ => none) none none)))
        ⟨1, 2, 1, 1, 1, 0, true, [LogEvent.retryNotice "up" 1]⟩).2).attempts
        = 1 + 1
    ∧ LogEvent.errLine "up" (CleanupError ⟨true, "throttled"⟩) ∈
        ((runNode ⟨1, 1, 2⟩ (fun n => decide (1 ≤ n))
          (Job.mk "up" (fun _ => some ⟨true, "throttled"⟩) none
            (some (Job.mk "cleanup" (fun _ => none) none none)))
          ⟨1, 2, 1, 1, 1, 0, true, [LogEvent.retryNotice "up" 1]⟩).2).log
    ∧ runChain ⟨1, 1, 2⟩ (fun n => decide (1 ≤ n))
        (some (Job.mk "up" (fun _ => some ⟨true, "throttled"⟩) none
          (some (Job.mk "cleanup" (fun _ => none) none none))))
        ⟨1, 2, 1, 1, 1, 0, true, [LogEvent.retryNotice "up" 1]⟩
      = runChain ⟨1, 1, 2⟩ (fun n => decide (1 ≤ n))
          (some (Job.mk "cleanup" (fun _ => none) none none))
          (resetState (runNode ⟨1, 1, 2⟩ (fun n => decide (1 ≤ n))
            (Job.mk "up" (fun _ => some ⟨true, "throttled"⟩) none
              (some (Job.mk "cleanup" (fun _ => none) none none)))
            ⟨1, 2, 1, 1, 1, 0, true, [LogEvent.retryNotice "up" 1]⟩).2)
    ∧ (runChain ⟨1, 1, 2⟩ (fun n => decide (1 ≤ n))
        (some (Job.mk "up" (fun _ => some ⟨true, "throttled"⟩) none
          (some (Job.mk "cleanup" (fun _ => none) none none))))
        ⟨1, 2, 1, 1, 1, 0, true, [LogEvent.retryNotice "up" 1]⟩).run = false
    ∧ workerLoop ⟨1, 1, 2⟩ (fun n => decide (1 ≤ n))
        [Job.mk "skipped" (fun _ => none) none none]
        (runChain ⟨1, 1, 2⟩ (fun n => decide (1 ≤ n))
          (some (Job.mk "up" (fun _ => some ⟨true, "throttled"⟩) none
            (some (Job.mk "cleanup" (fun _ => none) none none))))
          ⟨1, 2, 1, 1, 1, 0, true, [LogEvent.retryNotice "up" 1]⟩)
      = runChain ⟨1, 1, 2⟩ (fun n => decide (1 ≤ n))
          (some (Job.mk "up" (fun _ => some ⟨true, "throttled"⟩) none
            (some (Job.mk "cleanup" (fun _ => none) none none))))
          ⟨1, 2, 1, 1, 1, 0, true, [LogEvent.retryNotice "up" 1]⟩ :=
  cancel_during_backoff_spec ⟨1, 1, 2⟩ (fun n => decide (1 ≤ n)) "up"
    (fun _ => some ⟨true, "throttled"⟩) none
    (some (Job.mk "cleanup" (fun _ => none) none none))
    ⟨1, 2, 1, 1, 1, 0, true, [LogEvent.retryNotice "up" 1]⟩
    [Job.mk "skipped" (fun _ => none) none none]
    ⟨true, "throttled"⟩ rfl rfl (by decide) (by decide) rfl

/-- Claim C5: exactly one continuation is selected, only after the node's final
outcome is known: the success continuation on success, the failure
continuation (with a failure-counter increment and an error log line) on
terminal failure; the other continuation is not executed for that node. -/
theorem continuation_selection_spec (p : WorkerPoolParams)
    (cancel : Nat → Bool) (l : String) (a : Nat → Option Err)
    (sc fc : Option Job) (s : WState) :
    runChain p cancel (some (Job.mk l a sc fc)) s
      = runChain p cancel
          (if (runNode p cancel (Job.mk l a sc fc) s).1 = Outcome.success
            then sc else fc)
          (resetState (runNode p cancel (Job.mk l a sc fc) s).2)
    ∧ ((runNode p cancel (Job.mk l a sc fc) s).2).failCount
        = s.failCount +
            (if (runNode p cancel (Job.mk l a sc fc) s).1 = Outcome.success
              then 0 else 1)
    ∧ (if (runNode p cancel (Job.mk l a sc fc) s).1 = Outcome.success then
        LogEvent.okLine l ∈ ((runNode p cancel (Job.mk l a sc fc) s).2).log
      else
        ∃ m, LogEvent.errLine l m ∈
          ((runNode p cancel (Job.mk l a sc fc) s).2).log) := by
  refine ⟨?_, runNode_failCount p cancel (Job.mk l a sc fc) s,
    by simpa [Job.label] using runNode_logged p cancel (Job.mk l a sc fc) s⟩
  cases hOut : (runNode p cancel (Job.mk l a sc fc) s).1 with
  | success =>
    rw [if_pos rfl]
    exact runChain_success_step p cancel l a sc fc s hOut
  | failure =>
    rw [if_neg (fun hcon => by cases hcon)]
    exact runChain_failure_step p cancel l a sc fc s hOut

/-- Claim C6: on every chain-node resolution the backoff state (attempt count and
current interval) is reset before the next chain node begins, so every node
entry state — and the state left for the next dequeued job — carries a zero
attempt count and the initial interval. -/
theorem backoff_reset_spec (p : WorkerPoolParams) (cancel : Nat → Bool)
    (oj : Option Job) (s : WState) (h0 : s.tries = 0)
    (hcur : s.cur = initialInterval) :
    (∀ t ∈ entryStates p cancel oj s, t.tries = 0 ∧ t.cur = initialInterval)
    ∧ (runChain p cancel oj s).tries = 0
    ∧ (runChain p cancel oj s).cur = initialInterval := by
  obtain ⟨hA, hB⟩ := runChain_final_reset p cancel oj s h0 hcur
  exact ⟨entryStates_reset p cancel oj s h0 hcur, hA, hB⟩

theorem backoff_reset_spec_witness :
    (∀ t ∈ entryStates ⟨1, 1, 1⟩ (fun _ => false)
        (some (Job.mk "a" (fun _ => none)
          (some (Job.mk "b" (fun _ => some ⟨true, "x"⟩) none none)) none))
        ⟨0, 1, 0, 0, 0, 0, true, []⟩,
      t.tries = 0 ∧ t.cur = initialInterval)
    ∧ (runChain ⟨1, 1, 1⟩ (fun _ => false)
        (some (Job.mk "a" (fun _ => none)
          (some (Job.mk "b" (fun _ => some ⟨true, "x"⟩) none none)) none))
        ⟨0, 1, 0, 0, 0, 0, true, []⟩).tries = 0
    ∧ (runChain ⟨1, 1, 1⟩ (fun _ => false)
        (some (Job.mk "a" (fun _ => none)
          (some (Job.mk "b" (fun _ => some ⟨true, "x"⟩) none none)) none))
        ⟨0, 1, 0, 0, 0, 0, true, []⟩).cur = initialInterval :=
  backoff_reset_spec ⟨1, 1, 1⟩ (fun _ => false)
    (some (Job.mk "a" (fun _ => none)
      (some (Job.mk "b" (fun _ => some ⟨true, "x"⟩) none none)) none))
    ⟨0, 1, 0, 0, 0, 0, true, []⟩ rfl rfl

/-- Claim C7: the backoff sleep intervals of consecutive retries of one node
start at one time unit, grow by multiplier 2 (capped), are non-decreasing,
and never exceed the configured maximum interval; the sleep durations a
node logs are exactly the consecutive values of that sequence. -/
theorem backoff_interval_spec (p : WorkerPoolParams) (cancel : Nat → Bool)
    (j : Job) (s : WState) (hcur : s.cur = initialInterval) :
    curAfter 0 = initialInterval
    ∧ (∀ n, curAfter n ≤ curAfter (n + 1))
    ∧ (∀ n, curAfter n ≤ maxInterval)
    ∧ (∀ n, curAfter (n + 1) = min (curAfter n * 2) maxInterval)
    ∧ noticeTimes ((runNode p cancel j s).2).log
        = noticeTimes s.log ++
            (List.range (((runNode p cancel j s).2).sleeps - s.sleeps)).map
              curAfter := by
  refine ⟨rfl, curAfter_mono, curAfter_le_max, fun n => rfl, ?_⟩
  have h := runNode_notices p cancel j s 0 (by simpa using hcur)
  simpa [List.range_eq_range'] using h

theorem backoff_interval_spec_witness :
    curAfter 0 = initialInterval
    ∧ (∀ n, curAfter n ≤ curAfter (n + 1))
    ∧ (∀ n, curAfter n ≤ maxInterval)
    ∧ (∀ n, curAfter (n + 1) = min (curAfter n * 2) maxInterval)
    ∧ noticeTimes ((runNode ⟨1, 1, 2⟩ (fun _ => false)
          (Job.mk "get" (fun _ => some ⟨true, "busy"⟩) none none)
          ⟨0, 1, 0, 0, 0, 0, true, []⟩).2).log
        = noticeTimes ([] : List LogEvent) ++
            (List.range (((runNode ⟨1, 1, 2⟩ (fun _ => false)
              (Job.mk "get" (fun _ => some ⟨true, "busy"⟩) none none)
              ⟨0, 1, 0, 0, 0, 0, true, []⟩).2).sleeps - 0)).map curAfter :=
  backoff_interval_spec ⟨1, 1, 2⟩ (fun _ => false)
    (Job.mk "get" (fun _ => some ⟨true, "busy"⟩) none none)
    ⟨0, 1, 0, 0, 0, 0, true, []⟩ rfl


/-- Claim C4: whenever the streaming run terminates — through end-of-input,
cancellation, a read error or an aborted submit — the queue is closed
exactly once (never twice: the cancellation path closes only if the
end-of-input path has not) and the workers are waited for exactly once
before returning. -/
theorem run_close_wait_spec (parse : String → Except String Job)
    (input : List ReadResult) (evs : List FeedEvent)
    (h : Run parse input = some evs) :
    evs.count FeedEvent.closeQueue = 1
    ∧ evs.count FeedEvent.waitWorkers = 1 := by
  unfold Run at h
  cases hF : feedLoop parse input false [] with
  | none => rw [hF] at h; cases h
  | some pr =>
    rcases pr with ⟨closed, evs0⟩
    rw [hF] at h
    simp only [Option.some.injEq] at h
    subst h
    obtain ⟨hclose, hwait⟩ :=
      feedLoop_counts parse input false [] rfl closed evs0 hF
    cases closed with
    | false =>
      simp only [List.count_nil] at hclose hwait
      simp [List.count_append, hclose, hwait, List.count_singleton]
    | true =>
      simp only [List.count_nil] at hclose hwait
      simp [List.count_append, hclose, hwait, List.count_singleton]

theorem run_close_wait_spec_witness :
    List.count FeedEvent.closeQueue
        [FeedEvent.closeQueue, FeedEvent.waitWorkers] = 1
    ∧ List.count FeedEvent.waitWorkers
        [FeedEvent.closeQueue, FeedEvent.waitWorkers] = 1 :=
  run_close_wait_spec (fun s => Except.error s) [ReadResult.eofR]
    [FeedEvent.closeQueue, FeedEvent.waitWorkers] rfl

/-- Claim C8: a submit races the queue send against cancellation: if the context
is canceled before a worker receives the job, `singleRun` aborts (returns
false) and the job is never handed to the queue; if the send wins, exactly
that job is enqueued. -/
theorem submit_cancellation_spec (parse : String → Except String Job)
    (ln : String) (j : Job) (h : parse ln = Except.ok j) :
    singleRun parse true ln = (false, [], 0)
    ∧ singleRun parse false ln =
        (true, [FeedEvent.submitJob j.label], 0) := by
  constructor <;> simp [singleRun, h]

theorem submit_cancellation_spec_witness :
    singleRun (fun s => Except.ok (Job.mk s (fun _ => none) none none))
        true "ls" = (false, [], 0)
    ∧ singleRun (fun s => Except.ok (Job.mk s (fun _ => none) none none))
        false "ls" =
        (true,
          [FeedEvent.submitJob
            (Job.mk "ls" (fun _ => none) none none).label], 0) :=
  submit_cancellation_spec
    (fun s => Except.ok (Job.mk s (fun _ => none) none none)) "ls"
    (Job.mk "ls" (fun _ => none) none none) rfl

/-- Claim C9: pool construction spawns exactly `NumWorkers` workers, and each
worker builds its own service client, downloader and uploader — all the
handles across the pool are pairwise distinct, so no resource is shared
across workers. -/
theorem pool_spawn_resources_spec (ctx : Ctx) (params : WorkerPoolParams)
    (a : Alloc) (pool : WorkerPool) (a' : Alloc)
    (hctx : ctx.values "cancelFunc" = some CtxVal.cancelFunc)
    (hn : 0 ≤ params.NumWorkers)
    (h : NewWorkerPool ctx params a = (some pool, a')) :
    (pool.workers.length : Int) = params.NumWorkers
    ∧ (allHandles pool.workers).Nodup := by
  unfold NewWorkerPool at h
  rw [hctx] at h
  rcases hS : spawnWorkers params.NumWorkers.toNat a with ⟨ws, a1⟩
  rw [hS] at h
  simp only [Option.some.injEq, Prod.mk.injEq] at h
  obtain ⟨hp1, _⟩ := h
  constructor
  · rw [← hp1]
    show ((ws.length : Nat) : Int) = params.NumWorkers
    have hlen : ws.length = params.NumWorkers.toNat := by
      have := spawnWorkers_length params.NumWorkers.toNat a
      rw [hS] at this
      exact this
    rw [hlen]
    exact Int.toNat_of_nonneg hn
  · rw [← hp1]
    show (allHandles ws).Nodup
    have := spawnWorkers_nodup params.NumWorkers.toNat a
    rw [hS] at this
    exact this

theorem pool_spawn_resources_spec_witness :
    ((([⟨0, 1, 2⟩, ⟨3, 4, 5⟩] : List WorkerParams).length : Int) = (2 : Int))
    ∧ (allHandles [⟨0, 1, 2⟩, ⟨3, 4, 5⟩]).Nodup :=
  pool_spawn_resources_spec
    ⟨fun k => if k = "cancelFunc" then some CtxVal.cancelFunc else none⟩
    ⟨2, 5, 3⟩ ⟨0⟩ ⟨2, [⟨0, 1, 2⟩, ⟨3, 4, 5⟩]⟩ ⟨6⟩ rfl (by decide) rfl

/-- Claim C10: pool construction requires the context to carry a cancel function
under the key "cancelFunc": a missing key or a value of another dynamic
type makes the type assertion at worker.go line 48 panic before the pool is
created or any worker is spawned (the allocator is returned untouched). -/
theorem cancelFunc_precondition_spec (ctx : Ctx) (params : WorkerPoolParams)
    (a : Alloc)
    (h : ctx.values "cancelFunc" = none ∨
      ctx.values "cancelFunc" = some CtxVal.otherVal) :
    NewWorkerPool ctx params a = (none, a) := by
  unfold NewWorkerPool
  rcases h with h | h <;> rw [h]

theorem cancelFunc_precondition_spec_witness :
    NewWorkerPool ⟨fun _ => none⟩ ⟨4, 1024, 5⟩ ⟨0⟩ = (none, ⟨0⟩) :=
  cancelFunc_precondition_spec ⟨fun _ => none⟩ ⟨4, 1024, 5⟩ ⟨0⟩ (Or.inl rfl)


end S5cmd
